import Mathlib

/-!
Shallow embedding of `src/scripts/vkcapture_exe_override.c`, an LD_PRELOAD
interposer that shadows `readlink` and `readlinkat` and rewrites the result
of querying `/proc/self/exe` when the environment variable
`OBS_VKCAPTURE_EXE_NAME` is set to a non-empty string.

Modelling conventions:
- C strings (NUL-terminated, NUL-free content) are `List Char`.
- A caller-supplied buffer is `Option (List Char)`: `none` models a NULL
  pointer, `some b` a buffer whose current contents are `b` (its length is
  the accessible capacity as far as the claims need it).
- The true libc implementations and `getenv`/`dlsym` outcomes are an oracle
  record `Env`; the real `readlink` is a function from (path, bufsiz) to a
  result record (return value, bytes it wrote at the start of the buffer,
  optional new errno).  `dlsym` success is a Bool per symbol (the lookup is
  deterministic within one process).
- The two static function-pointer caches and the thread-local `errno` are a
  state record `PState` threaded through every call.
- Each wrapper invocation returns a `CallOut` that records, besides the
  visible result (return value, buffer contents, errno), instrumentation
  counters: how many `dlsym` lookups, real-implementation invocations,
  `getenv` reads and `build_override` invocations the call performed.
-/

namespace VkOverride

/-- C string contents (no terminating NUL). -/
abbrev Str := List Char

/-- Value of `PATH_MAX` from Linux `<limits.h>`. -/
def PATH_MAX : Nat := 4096

/-- Value of the `EINVAL` errno constant. -/
def EINVAL : Nat := 22

/-- Value of the `ENOSYS` errno constant. -/
def ENOSYS : Nat := 38

/-- The reserved pseudo-path `/proc/self/exe`. -/
def procSelfExe : Str := "/proc/self/exe".toList

/-- Writing `w` at offset 0 of a buffer currently holding `b`
(`memcpy(b, w, w.length)`). -/
def overwrite (b w : Str) : Str := w ++ b.drop w.length

/-- Index of the last `'/'` in a string (`strrchr(s, '/') - s`),
`none` when there is no `'/'` (`strrchr` returned NULL). -/
def lastSlashIdx : Str → Option Nat
  | [] => none
  | c :: rest =>
    match lastSlashIdx rest with
    | some i => some (i + 1)
    | none => if c = '/' then some 0 else none

/-- The string `build_override` formats into its local `out[PATH_MAX]`
buffer: the three `snprintf` cases, each truncated by `snprintf` to
`sizeof(out) - 1 = PATH_MAX - 1` characters. -/
def build_override_out (real_path ov : Str) : Str :=
  match lastSlashIdx real_path with
  | some i =>
    if i = 0 then (('/' : Char) :: ov).take (PATH_MAX - 1)
    else (real_path.take i ++ ('/' : Char) :: ov).take (PATH_MAX - 1)
  | none => ov.take (PATH_MAX - 1)

/-- Result of `build_override`: the returned byte count and the final
contents of the caller's destination buffer. -/
structure BuildOut where
  ret : Int
  buf : Option Str
deriving DecidableEq, Repr

/-- Model of `build_override(real_path, override, buf, bufsiz)`: format the
replacement path, then copy `copy_len = min(out_len, bufsiz)` bytes into
`buf` when `copy_len > 0 && buf`, and return `copy_len`. -/
def build_override (real_path ov : Str) (buf : Option Str) (bufsiz : Nat) : BuildOut :=
  let out := build_override_out real_path ov
  let copy_len := min out.length bufsiz
  match buf with
  | some b =>
    if 0 < copy_len then { ret := (copy_len : Int), buf := some (overwrite b (out.take copy_len)) }
    else { ret := (copy_len : Int), buf := some b }
  | none => { ret := (copy_len : Int), buf := none }

/-- Outcome of one invocation of a real (libc) readlink-family function:
return value, the bytes it placed at the start of the supplied buffer, and
the errno it set (`none` = errno left unchanged). -/
structure RlRes where
  ret : Int
  written : Str
  errnoSet : Option Nat
deriving DecidableEq, Repr

/-- The process environment and dynamic-linking oracle: the value of
`OBS_VKCAPTURE_EXE_NAME` (`none` = unset, `some []` = empty), whether
`dlsym(RTLD_NEXT, ...)` finds each symbol, and the behaviour of the two
real implementations. -/
structure Env where
  exeName : Option Str
  dlsymRl : Bool
  dlsymRlat : Bool
  realReadlink : Str → Nat → RlRes
  realReadlinkat : Int → Str → Nat → RlRes

/-- Mutable process state: the two static function-pointer caches
(`real_readlink_fn`, `real_readlinkat_fn`, modelled as "resolved or not")
and the thread-local `errno`. -/
structure PState where
  cachedRl : Bool
  cachedRlat : Bool
  errno : Nat
deriving DecidableEq, Repr

/-- Outcome of `call_real_readlink` / `call_real_readlinkat`: return value,
bytes written into the supplied buffer, errno afterwards, number of `dlsym`
invocations performed (0 or 1), number of invocations of the real
implementation (0 or 1), and the cache flag afterwards. -/
structure RealCallOut where
  ret : Int
  written : Str
  errno : Nat
  lookups : Nat
  realInvoked : Nat
  cached : Bool
deriving DecidableEq, Repr

/-- Model of `call_real_readlink`: resolve the original `readlink` via
`dlsym` if the cache is NULL; if still NULL fail with `ENOSYS`, otherwise
tail-call it. -/
def call_real_readlink (E : Env) (cached : Bool) (errno : Nat) (path : Str) (bufsiz : Nat) :
    RealCallOut :=
  let cached' := if cached then true else E.dlsymRl
  let lk := if cached then 0 else 1
  if cached' then
    let r := E.realReadlink path bufsiz
    { ret := r.ret, written := r.written, errno := r.errnoSet.getD errno,
      lookups := lk, realInvoked := 1, cached := cached' }
  else
    { ret := -1, written := [], errno := ENOSYS,
      lookups := lk, realInvoked := 0, cached := cached' }

/-- Model of `call_real_readlinkat`: same as `call_real_readlink` for the
directory-relative variant. -/
def call_real_readlinkat (E : Env) (cached : Bool) (errno : Nat) (dirfd : Int) (path : Str)
    (bufsiz : Nat) : RealCallOut :=
  let cached' := if cached then true else E.dlsymRlat
  let lk := if cached then 0 else 1
  if cached' then
    let r := E.realReadlinkat dirfd path bufsiz
    { ret := r.ret, written := r.written, errno := r.errnoSet.getD errno,
      lookups := lk, realInvoked := 1, cached := cached' }
  else
    { ret := -1, written := [], errno := ENOSYS,
      lookups := lk, realInvoked := 0, cached := cached' }

/-- Observable outcome of one wrapper invocation: visible result (return
value, buffer contents, errno) plus instrumentation (dlsym lookups, real
calls, getenv reads, build_override invocations) and the caches afterwards. -/
structure CallOut where
  ret : Int
  buf : Option Str
  errno : Nat
  lookups : Nat
  realCalls : Nat
  envReads : Nat
  buildCalls : Nat
  cachedRl : Bool
  cachedRlat : Bool
deriving DecidableEq, Repr

/-- The interposed `readlink(path, buf, bufsiz)` wrapper
(`path = none` models a NULL path pointer). -/
def readlink (E : Env) (st : PState) (path : Option Str) (buf : Option Str) (bufsiz : Nat) :
    CallOut :=
  match path with
  | none =>
    { ret := -1, buf := buf, errno := EINVAL, lookups := 0, realCalls := 0,
      envReads := 0, buildCalls := 0, cachedRl := st.cachedRl, cachedRlat := st.cachedRlat }
  | some p =>
    if E.exeName = none ∨ E.exeName = some [] ∨ p ≠ procSelfExe then
      let r := call_real_readlink E st.cachedRl st.errno p bufsiz
      { ret := r.ret, buf := buf.map (fun b => overwrite b r.written), errno := r.errno,
        lookups := r.lookups, realCalls := r.realInvoked, envReads := 1, buildCalls := 0,
        cachedRl := r.cached, cachedRlat := st.cachedRlat }
    else
      let ov := E.exeName.getD []
      let r := call_real_readlink E st.cachedRl st.errno p (PATH_MAX - 1)
      if r.ret < 0 then
        { ret := r.ret, buf := buf, errno := r.errno, lookups := r.lookups,
          realCalls := r.realInvoked, envReads := 1, buildCalls := 0,
          cachedRl := r.cached, cachedRlat := st.cachedRlat }
      else
        let real_path := r.written.take r.ret.toNat
        let b := build_override real_path ov buf bufsiz
        { ret := b.ret, buf := b.buf, errno := r.errno, lookups := r.lookups,
          realCalls := r.realInvoked, envReads := 1, buildCalls := 1,
          cachedRl := r.cached, cachedRlat := st.cachedRlat }

/-- The interposed `readlinkat(dirfd, path, buf, bufsiz)` wrapper. -/
def readlinkat (E : Env) (st : PState) (dirfd : Int) (path : Option Str) (buf : Option Str)
    (bufsiz : Nat) : CallOut :=
  match path with
  | none =>
    { ret := -1, buf := buf, errno := EINVAL, lookups := 0, realCalls := 0,
      envReads := 0, buildCalls := 0, cachedRl := st.cachedRl, cachedRlat := st.cachedRlat }
  | some p =>
    if E.exeName = none ∨ E.exeName = some [] ∨ p ≠ procSelfExe then
      let r := call_real_readlinkat E st.cachedRlat st.errno dirfd p bufsiz
      { ret := r.ret, buf := buf.map (fun b => overwrite b r.written), errno := r.errno,
        lookups := r.lookups, realCalls := r.realInvoked, envReads := 1, buildCalls := 0,
        cachedRl := st.cachedRl, cachedRlat := r.cached }
    else
      let ov := E.exeName.getD []
      let r := call_real_readlinkat E st.cachedRlat st.errno dirfd p (PATH_MAX - 1)
      if r.ret < 0 then
        { ret := r.ret, buf := buf, errno := r.errno, lookups := r.lookups,
          realCalls := r.realInvoked, envReads := 1, buildCalls := 0,
          cachedRl := st.cachedRl, cachedRlat := r.cached }
      else
        let real_path := r.written.take r.ret.toNat
        let b := build_override real_path ov buf bufsiz
        { ret := b.ret, buf := b.buf, errno := r.errno, lookups := r.lookups,
          realCalls := r.realInvoked, envReads := 1, buildCalls := 1,
          cachedRl := st.cachedRl, cachedRlat := r.cached }

/-- Calling the original `readlink` implementation directly (no interposer):
return value, final buffer contents, final errno. -/
def directReadlink (E : Env) (errno : Nat) (p : Str) (buf : Option Str) (bufsiz : Nat) :
    Int × Option Str × Nat :=
  let r := E.realReadlink p bufsiz
  (r.ret, buf.map (fun b => overwrite b r.written), r.errnoSet.getD errno)

/-- Calling the original `readlinkat` implementation directly. -/
def directReadlinkat (E : Env) (errno : Nat) (dirfd : Int) (p : Str) (buf : Option Str)
    (bufsiz : Nat) : Int × Option Str × Nat :=
  let r := E.realReadlinkat dirfd p bufsiz
  (r.ret, buf.map (fun b => overwrite b r.written), r.errnoSet.getD errno)

/-- One intercepted invocation in a process trace. -/
inductive Call where
  | rl (path : Option Str) (buf : Option Str) (bufsiz : Nat)
  | rlat (dirfd : Int) (path : Option Str) (buf : Option Str) (bufsiz : Nat)

/-- Execute one call in the current state. -/
def doCall (E : Env) (st : PState) : Call → CallOut
  | .rl p b n => readlink E st p b n
  | .rlat d p b n => readlinkat E st d p b n

/-- The process state after a wrapper invocation. -/
def postState (o : CallOut) : PState :=
  { cachedRl := o.cachedRl, cachedRlat := o.cachedRlat, errno := o.errno }

/-- Total number of `dlsym` invocations for the `readlink` symbol over a
sequence of wrapper calls. -/
def rlLookups (E : Env) (st : PState) : List Call → Nat
  | [] => 0
  | c :: cs =>
    let o := doCall E st c
    (match c with
     | .rl _ _ _ => o.lookups
     | .rlat _ _ _ _ => 0) + rlLookups E (postState o) cs

/-- Total number of `dlsym` invocations for the `readlinkat` symbol over a
sequence of wrapper calls. -/
def rlatLookups (E : Env) (st : PState) : List Call → Nat
  | [] => 0
  | c :: cs =>
    let o := doCall E st c
    (match c with
     | .rl _ _ _ => 0
     | .rlat _ _ _ _ => o.lookups) + rlatLookups E (postState o) cs

/-! Helper lemmas shared by several results. -/

lemma build_override_out_len (R O : Str) : (build_override_out R O).length ≤ PATH_MAX - 1 := by
  unfold build_override_out
  cases lastSlashIdx R with
  | none =>
    rw [List.length_take]
    exact Nat.min_le_left _ _
  | some i =>
    by_cases h : i = 0 <;> simp only [h, if_true, if_false, reduceIte] <;>
      rw [List.length_take] <;> exact Nat.min_le_left _ _

lemma build_override_ret (R O : Str) (buf : Option Str) (bufsiz : Nat) :
    (build_override R O buf bufsiz).ret =
      ((min (build_override_out R O).length bufsiz : Nat) : Int) := by
  cases buf with
  | none => rfl
  | some b =>
    simp only [build_override]
    split <;> rfl

lemma build_override_buf_some (R O b : Str) (bufsiz : Nat) :
    (build_override R O (some b) bufsiz).buf =
      some ((build_override_out R O).take (min (build_override_out R O).length bufsiz) ++
        b.drop (min (build_override_out R O).length bufsiz)) := by
  simp only [build_override, overwrite]
  split
  · rw [List.length_take]
    have hmm : min (min (build_override_out R O).length bufsiz)
        (build_override_out R O).length = min (build_override_out R O).length bufsiz := by
      omega
    rw [hmm]
  · rename_i h
    have h0 : min (build_override_out R O).length bufsiz = 0 := by omega
    rw [h0]
    simp

/-- Claim C9: path synthesis always fits the fixed `PATH_MAX`-byte internal
buffer: for every real path and override string the synthesized string's
length is at most `PATH_MAX - 1` (leaving room for the terminating NUL), so
the length-bounded formatting never overflows the bound. -/
theorem build_override_never_overflows (R O : Str) :
    (build_override_out R O).length ≤ PATH_MAX - 1 ∧
    (build_override_out R O).length + 1 ≤ PATH_MAX := by
  have h := build_override_out_len R O
  refine ⟨h, ?_⟩
  have hPM : PATH_MAX = 4096 := rfl
  omega

/-- Claim C3: with a non-null destination buffer, `build_override` copies
exactly `min(result_length, capacity)` bytes of the synthesized result into
the buffer, returns that same count (hence never more than the capacity),
and leaves every byte past the copied prefix unchanged (no null terminator
is appended beyond the copied bytes). -/
theorem build_override_copy_contract (R O b : Str) (bufsiz : Nat) :
    (build_override R O (some b) bufsiz).ret =
      ((min (build_override_out R O).length bufsiz : Nat) : Int) ∧
    (build_override R O (some b) bufsiz).buf =
      some ((build_override_out R O).take (min (build_override_out R O).length bufsiz) ++
        b.drop (min (build_override_out R O).length bufsiz)) ∧
    (build_override R O (some b) bufsiz).ret ≤ (bufsiz : Int) := by
  refine ⟨build_override_ret R O (some b) bufsiz, build_override_buf_some R O b bufsiz, ?_⟩
  rw [build_override_ret R O (some b) bufsiz]
  exact_mod_cast Nat.min_le_right _ _

/-- Claim C4 counterexample: on the override path with a NULL destination
buffer and nonzero capacity, `build_override` does not return 0 as the
claim states; it returns `min(result_length, capacity)` (17 here). -/
theorem build_override_null_buf_counterexample :
    (build_override "/usr/bin/realprog".toList "fakeprog".toList none 100).ret = 17 ∧
    ¬ (build_override "/usr/bin/realprog".toList "fakeprog".toList none 100).ret = 0 := by
  constructor <;> decide

/-- Claim C4 (amended): with a NULL destination buffer (any capacity), no
memory write is performed, and the call returns `min(result_length,
capacity)` — the count that would have been copied — which is nonnegative,
rather than the constant 0 the claim states. -/
theorem build_override_null_buf (R O : Str) (bufsiz : Nat) :
    (build_override R O none bufsiz).buf = none ∧
    (build_override R O none bufsiz).ret =
      ((min (build_override_out R O).length bufsiz : Nat) : Int) ∧
    0 ≤ (build_override R O none bufsiz).ret := by
  refine ⟨rfl, rfl, ?_⟩
  rw [build_override_ret R O none bufsiz]
  exact Int.natCast_nonneg _

/-- Claim C2 counterexample: the synthesized path is not always
`<directory>/<override>` — when the combination exceeds the internal
buffer, `snprintf` truncates it.  With real path `/u/r` and a 4094-byte
override, the formatted string (4097 bytes) is cut to 4095 bytes. -/
theorem build_override_truncation_counterexample :
    build_override_out "/u/r".toList (List.replicate 4094 'a') ≠
      ("/u/r".toList).take 2 ++ ('/' : Char) :: List.replicate 4094 'a' := by
  intro hEq
  have hL : (build_override_out "/u/r".toList (List.replicate 4094 'a')).length ≤ PATH_MAX - 1 :=
    build_override_out_len _ _
  rw [hEq] at hL
  have h4 : ("/u/r".toList).length = 4 := rfl
  have hR : (("/u/r".toList).take 2 ++ ('/' : Char) :: List.replicate 4094 'a').length = 4097 := by
    rw [List.length_append, List.length_cons, List.length_replicate, List.length_take, h4]
    omega
  rw [hR] at hL
  have hPM : PATH_MAX = 4096 := rfl
  omega

/-- Claim C2 (amended): provided the combined directory, separator and
override fit inside the internal buffer (`PATH_MAX - 1` bytes), the
synthesized path is: `<directory>/<override>` when the real path's last
separator is not its first character, `/<override>` when it is, and the
override alone when the real path has no separator; in particular real
target `/usr/bin/realprog` with override `fakeprog` synthesizes
`/usr/bin/fakeprog`, 17 bytes.  (Without the size bound the result is the
`snprintf`-truncated prefix, see the counterexample.) -/
theorem build_override_synthesis (R O : Str)
    (h : (match lastSlashIdx R with
          | none => O
          | some 0 => ('/' : Char) :: O
          | some (i + 1) => R.take (i + 1) ++ ('/' : Char) :: O).length ≤ PATH_MAX - 1) :
    build_override_out R O =
      (match lastSlashIdx R with
       | none => O
       | some 0 => ('/' : Char) :: O
       | some (i + 1) => R.take (i + 1) ++ ('/' : Char) :: O) ∧
    build_override_out "/usr/bin/realprog".toList "fakeprog".toList =
      "/usr/bin/fakeprog".toList ∧
    ("/usr/bin/fakeprog".toList).length = 17 := by
  refine ⟨?_, by decide, by decide⟩
  unfold build_override_out
  rcases hls : lastSlashIdx R with _ | i
  · rw [hls] at h
    exact List.take_of_length_le h
  · rcases i with _ | j
    · rw [hls] at h
      simp only [if_true, reduceIte]
      exact List.take_of_length_le h
    · rw [hls] at h
      simp only [Nat.succ_ne_zero, if_false, reduceIte]
      exact List.take_of_length_le h

/-- Witness for the amended C2 at a concrete input. -/
theorem build_override_synthesis_witness :
    (match lastSlashIdx "/usr/bin/realprog".toList with
     | none => "fakeprog".toList
     | some 0 => ('/' : Char) :: "fakeprog".toList
     | some (i + 1) =>
       ("/usr/bin/realprog".toList).take (i + 1) ++
         ('/' : Char) :: "fakeprog".toList).length ≤ PATH_MAX - 1 ∧
    build_override_out "/usr/bin/realprog".toList "fakeprog".toList =
      "/usr/bin/fakeprog".toList :=
  ⟨by decide, (build_override_synthesis "/usr/bin/realprog".toList "fakeprog".toList
    (by decide)).2.1⟩

/-! Helper lemmas about the symbol-resolution helpers. -/

lemma call_real_readlink_resolved (E : Env) (c : Bool) (e : Nat) (p : Str) (n : Nat)
    (h : c = true ∨ E.dlsymRl = true) :
    call_real_readlink E c e p n =
      { ret := (E.realReadlink p n).ret, written := (E.realReadlink p n).written,
        errno := (E.realReadlink p n).errnoSet.getD e,
        lookups := if c then 0 else 1, realInvoked := 1, cached := true } := by
  rcases h with h | h
  · subst h; rfl
  · cases c
    · simp [call_real_readlink, h]
    · rfl

lemma call_real_readlinkat_resolved (E : Env) (c : Bool) (e : Nat) (d : Int) (p : Str) (n : Nat)
    (h : c = true ∨ E.dlsymRlat = true) :
    call_real_readlinkat E c e d p n =
      { ret := (E.realReadlinkat d p n).ret, written := (E.realReadlinkat d p n).written,
        errno := (E.realReadlinkat d p n).errnoSet.getD e,
        lookups := if c then 0 else 1, realInvoked := 1, cached := true } := by
  rcases h with h | h
  · subst h; rfl
  · cases c
    · simp [call_real_readlinkat, h]
    · rfl

lemma call_real_readlink_unresolved (E : Env) (e : Nat) (p : Str) (n : Nat)
    (h : E.dlsymRl = false) :
    call_real_readlink E false e p n =
      { ret := -1, written := [], errno := ENOSYS, lookups := 1, realInvoked := 0,
        cached := false } := by
  simp [call_real_readlink, h]

lemma call_real_readlinkat_unresolved (E : Env) (e : Nat) (d : Int) (p : Str) (n : Nat)
    (h : E.dlsymRlat = false) :
    call_real_readlinkat E false e d p n =
      { ret := -1, written := [], errno := ENOSYS, lookups := 1, realInvoked := 0,
        cached := false } := by
  simp [call_real_readlinkat, h]

lemma call_real_readlink_lookups (E : Env) (c : Bool) (e : Nat) (p : Str) (n : Nat) :
    (call_real_readlink E c e p n).lookups = if c then 0 else 1 := by
  cases c
  · cases hE : E.dlsymRl <;> simp [call_real_readlink, hE]
  · rfl

lemma call_real_readlinkat_lookups (E : Env) (c : Bool) (e : Nat) (d : Int) (p : Str) (n : Nat) :
    (call_real_readlinkat E c e d p n).lookups = if c then 0 else 1 := by
  cases c
  · cases hE : E.dlsymRlat <;> simp [call_real_readlinkat, hE]
  · rfl

lemma call_real_readlink_cached (E : Env) (c : Bool) (e : Nat) (p : Str) (n : Nat) :
    (call_real_readlink E c e p n).cached = (c || E.dlsymRl) := by
  cases c
  · cases hE : E.dlsymRl <;> simp [call_real_readlink, hE]
  · rfl

lemma call_real_readlinkat_cached (E : Env) (c : Bool) (e : Nat) (d : Int) (p : Str) (n : Nat) :
    (call_real_readlinkat E c e d p n).cached = (c || E.dlsymRlat) := by
  cases c
  · cases hE : E.dlsymRlat <;> simp [call_real_readlinkat, hE]
  · rfl

/-! Branch-equation lemmas for the two wrappers. -/

lemma readlink_fast (E : Env) (st : PState) (p : Str) (buf : Option Str) (bufsiz : Nat)
    (hfast : E.exeName = none ∨ E.exeName = some [] ∨ p ≠ procSelfExe) :
    readlink E st (some p) buf bufsiz =
      { ret := (call_real_readlink E st.cachedRl st.errno p bufsiz).ret,
        buf := buf.map (fun b =>
          overwrite b (call_real_readlink E st.cachedRl st.errno p bufsiz).written),
        errno := (call_real_readlink E st.cachedRl st.errno p bufsiz).errno,
        lookups := (call_real_readlink E st.cachedRl st.errno p bufsiz).lookups,
        realCalls := (call_real_readlink E st.cachedRl st.errno p bufsiz).realInvoked,
        envReads := 1, buildCalls := 0,
        cachedRl := (call_real_readlink E st.cachedRl st.errno p bufsiz).cached,
        cachedRlat := st.cachedRlat } := by
  simp only [readlink]
  rw [if_pos hfast]

lemma readlinkat_fast (E : Env) (st : PState) (dirfd : Int) (p : Str) (buf : Option Str)
    (bufsiz : Nat)
    (hfast : E.exeName = none ∨ E.exeName = some [] ∨ p ≠ procSelfExe) :
    readlinkat E st dirfd (some p) buf bufsiz =
      { ret := (call_real_readlinkat E st.cachedRlat st.errno dirfd p bufsiz).ret,
        buf := buf.map (fun b =>
          overwrite b (call_real_readlinkat E st.cachedRlat st.errno dirfd p bufsiz).written),
        errno := (call_real_readlinkat E st.cachedRlat st.errno dirfd p bufsiz).errno,
        lookups := (call_real_readlinkat E st.cachedRlat st.errno dirfd p bufsiz).lookups,
        realCalls := (call_real_readlinkat E st.cachedRlat st.errno dirfd p bufsiz).realInvoked,
        envReads := 1, buildCalls := 0, cachedRl := st.cachedRl,
        cachedRlat := (call_real_readlinkat E st.cachedRlat st.errno dirfd p bufsiz).cached } := by
  simp only [readlinkat]
  rw [if_pos hfast]

lemma readlink_override_eq (E : Env) (st : PState) (buf : Option Str) (bufsiz : Nat) (O : Str)
    (hov : E.exeName = some O) (hO : O ≠ []) :
    readlink E st (some procSelfExe) buf bufsiz =
      (if (call_real_readlink E st.cachedRl st.errno procSelfExe (PATH_MAX - 1)).ret < 0 then
        { ret := (call_real_readlink E st.cachedRl st.errno procSelfExe (PATH_MAX - 1)).ret,
          buf := buf,
          errno := (call_real_readlink E st.cachedRl st.errno procSelfExe (PATH_MAX - 1)).errno,
          lookups := (call_real_readlink E st.cachedRl st.errno procSelfExe (PATH_MAX - 1)).lookups,
          realCalls :=
            (call_real_readlink E st.cachedRl st.errno procSelfExe (PATH_MAX - 1)).realInvoked,
          envReads := 1, buildCalls := 0,
          cachedRl := (call_real_readlink E st.cachedRl st.errno procSelfExe (PATH_MAX - 1)).cached,
          cachedRlat := st.cachedRlat }
      else
        { ret := (build_override
            ((call_real_readlink E st.cachedRl st.errno procSelfExe (PATH_MAX - 1)).written.take
              (call_real_readlink E st.cachedRl st.errno procSelfExe (PATH_MAX - 1)).ret.toNat)
            O buf bufsiz).ret,
          buf := (build_override
            ((call_real_readlink E st.cachedRl st.errno procSelfExe (PATH_MAX - 1)).written.take
              (call_real_readlink E st.cachedRl st.errno procSelfExe (PATH_MAX - 1)).ret.toNat)
            O buf bufsiz).buf,
          errno := (call_real_readlink E st.cachedRl st.errno procSelfExe (PATH_MAX - 1)).errno,
          lookups := (call_real_readlink E st.cachedRl st.errno procSelfExe (PATH_MAX - 1)).lookups,
          realCalls :=
            (call_real_readlink E st.cachedRl st.errno procSelfExe (PATH_MAX - 1)).realInvoked,
          envReads := 1, buildCalls := 1,
          cachedRl := (call_real_readlink E st.cachedRl st.errno procSelfExe (PATH_MAX - 1)).cached,
          cachedRlat := st.cachedRlat }) := by
  have hcond : ¬ (E.exeName = none ∨ E.exeName = some [] ∨ procSelfExe ≠ procSelfExe) := by
    rintro (h | h | h)
    · rw [hov] at h
      exact Option.noConfusion h
    · rw [hov] at h
      exact hO (Option.some.inj h)
    · exact h rfl
  simp only [readlink, hov]
  rw [if_neg]
  · simp only [Option.getD_some]
  · rw [← hov]
    exact hcond

lemma readlinkat_override_eq (E : Env) (st : PState) (dirfd : Int) (buf : Option Str)
    (bufsiz : Nat) (O : Str) (hov : E.exeName = some O) (hO : O ≠ []) :
    readlinkat E st dirfd (some procSelfExe) buf bufsiz =
      (if (call_real_readlinkat E st.cachedRlat st.errno dirfd procSelfExe
            (PATH_MAX - 1)).ret < 0 then
        { ret := (call_real_readlinkat E st.cachedRlat st.errno dirfd procSelfExe
            (PATH_MAX - 1)).ret,
          buf := buf,
          errno := (call_real_readlinkat E st.cachedRlat st.errno dirfd procSelfExe
            (PATH_MAX - 1)).errno,
          lookups := (call_real_readlinkat E st.cachedRlat st.errno dirfd procSelfExe
            (PATH_MAX - 1)).lookups,
          realCalls := (call_real_readlinkat E st.cachedRlat st.errno dirfd procSelfExe
            (PATH_MAX - 1)).realInvoked,
          envReads := 1, buildCalls := 0, cachedRl := st.cachedRl,
          cachedRlat := (call_real_readlinkat E st.cachedRlat st.errno dirfd procSelfExe
            (PATH_MAX - 1)).cached }
      else
        { ret := (build_override
            ((call_real_readlinkat E st.cachedRlat st.errno dirfd procSelfExe
              (PATH_MAX - 1)).written.take
              (call_real_readlinkat E st.cachedRlat st.errno dirfd procSelfExe
                (PATH_MAX - 1)).ret.toNat)
            O buf bufsiz).ret,
          buf := (build_override
            ((call_real_readlinkat E st.cachedRlat st.errno dirfd procSelfExe
              (PATH_MAX - 1)).written.take
              (call_real_readlinkat E st.cachedRlat st.errno dirfd procSelfExe
                (PATH_MAX - 1)).ret.toNat)
            O buf bufsiz).buf,
          errno := (call_real_readlinkat E st.cachedRlat st.errno dirfd procSelfExe
            (PATH_MAX - 1)).errno,
          lookups := (call_real_readlinkat E st.cachedRlat st.errno dirfd procSelfExe
            (PATH_MAX - 1)).lookups,
          realCalls := (call_real_readlinkat E st.cachedRlat st.errno dirfd procSelfExe
            (PATH_MAX - 1)).realInvoked,
          envReads := 1, buildCalls := 1, cachedRl := st.cachedRl,
          cachedRlat := (call_real_readlinkat E st.cachedRlat st.errno dirfd procSelfExe
            (PATH_MAX - 1)).cached }) := by
  have hcond : ¬ (E.exeName = none ∨ E.exeName = some [] ∨ procSelfExe ≠ procSelfExe) := by
    rintro (h | h | h)
    · rw [hov] at h
      exact Option.noConfusion h
    · rw [hov] at h
      exact hO (Option.some.inj h)
    · exact h rfl
  simp only [readlinkat, hov]
  rw [if_neg]
  · simp only [Option.getD_some]
  · rw [← hov]
    exact hcond

/-- Claim C6: a null path argument makes either wrapper fail immediately
with `EINVAL` and return -1, with no call to the original implementation,
the environment accessor, or the synthesis routine, and no buffer write. -/
theorem null_path_einval (E : Env) (st : PState) (buf : Option Str) (bufsiz : Nat) (dirfd : Int) :
    readlink E st none buf bufsiz =
      { ret := -1, buf := buf, errno := EINVAL, lookups := 0, realCalls := 0, envReads := 0,
        buildCalls := 0, cachedRl := st.cachedRl, cachedRlat := st.cachedRlat } ∧
    readlinkat E st dirfd none buf bufsiz =
      { ret := -1, buf := buf, errno := EINVAL, lookups := 0, realCalls := 0, envReads := 0,
        buildCalls := 0, cachedRl := st.cachedRl, cachedRlat := st.cachedRlat } :=
  ⟨rfl, rfl⟩

/-- Claim C1: on every input where the override does not apply — the path
differs from `/proc/self/exe`, or the override variable is unset or empty —
each wrapper delegates to the resolved original implementation with the
identical arguments: the return value, destination buffer contents and
errno are exactly those of calling the original directly, the original is
invoked exactly once, and no synthesis happens.  (Stated under the premise
that the original symbol is resolvable, which the claim presupposes by
speaking of the resolved original implementation.) -/
theorem fast_path_transparent (E : Env) (st : PState) (p : Str) (buf : Option Str)
    (bufsiz : Nat) (dirfd : Int)
    (hrl : st.cachedRl = true ∨ E.dlsymRl = true)
    (hrlat : st.cachedRlat = true ∨ E.dlsymRlat = true)
    (hfast : E.exeName = none ∨ E.exeName = some [] ∨ p ≠ procSelfExe) :
    ((readlink E st (some p) buf bufsiz).ret = (directReadlink E st.errno p buf bufsiz).1 ∧
     (readlink E st (some p) buf bufsiz).buf = (directReadlink E st.errno p buf bufsiz).2.1 ∧
     (readlink E st (some p) buf bufsiz).errno = (directReadlink E st.errno p buf bufsiz).2.2 ∧
     (readlink E st (some p) buf bufsiz).realCalls = 1 ∧
     (readlink E st (some p) buf bufsiz).buildCalls = 0) ∧
    ((readlinkat E st dirfd (some p) buf bufsiz).ret =
       (directReadlinkat E st.errno dirfd p buf bufsiz).1 ∧
     (readlinkat E st dirfd (some p) buf bufsiz).buf =
       (directReadlinkat E st.errno dirfd p buf bufsiz).2.1 ∧
     (readlinkat E st dirfd (some p) buf bufsiz).errno =
       (directReadlinkat E st.errno dirfd p buf bufsiz).2.2 ∧
     (readlinkat E st dirfd (some p) buf bufsiz).realCalls = 1 ∧
     (readlinkat E st dirfd (some p) buf bufsiz).buildCalls = 0) := by
  rw [readlink_fast E st p buf bufsiz hfast,
    call_real_readlink_resolved E st.cachedRl st.errno p bufsiz hrl,
    readlinkat_fast E st dirfd p buf bufsiz hfast,
    call_real_readlinkat_resolved E st.cachedRlat st.errno dirfd p bufsiz hrlat]
  simp [directReadlink, directReadlinkat]

/-- Witness for C1 at a concrete input: an environment with a resolvable
original returning target `abc`, path `/tmp/x`, a 5-byte buffer. -/
theorem fast_path_transparent_witness :
    ((⟨false, false, 7⟩ : PState).cachedRl = true ∨
      (⟨none, true, true, fun _ n => ⟨3, "abc".toList.take n, none⟩,
        fun _ _ n => ⟨3, "abc".toList.take n, none⟩⟩ : Env).dlsymRl = true) ∧
    ((⟨false, false, 7⟩ : PState).cachedRlat = true ∨
      (⟨none, true, true, fun _ n => ⟨3, "abc".toList.take n, none⟩,
        fun _ _ n => ⟨3, "abc".toList.take n, none⟩⟩ : Env).dlsymRlat = true) ∧
    (readlink
        (⟨none, true, true, fun _ n => ⟨3, "abc".toList.take n, none⟩,
          fun _ _ n => ⟨3, "abc".toList.take n, none⟩⟩ : Env)
        ⟨false, false, 7⟩ (some "/tmp/x".toList) (some (List.replicate 5 '.')) 5).ret =
      (directReadlink
        (⟨none, true, true, fun _ n => ⟨3, "abc".toList.take n, none⟩,
          fun _ _ n => ⟨3, "abc".toList.take n, none⟩⟩ : Env)
        7 "/tmp/x".toList (some (List.replicate 5 '.')) 5).1 := by
  refine ⟨Or.inr rfl, Or.inr rfl, ?_⟩
  exact (fast_path_transparent
    (⟨none, true, true, fun _ n => ⟨3, "abc".toList.take n, none⟩,
      fun _ _ n => ⟨3, "abc".toList.take n, none⟩⟩ : Env)
    ⟨false, false, 7⟩ "/tmp/x".toList (some (List.replicate 5 '.')) 5 0
    (Or.inr rfl) (Or.inr rfl)
    (Or.inl rfl)).1.1

lemma build_override_ret_nonneg (R O : Str) (buf : Option Str) (bufsiz : Nat) :
    0 ≤ (build_override R O buf bufsiz).ret := by
  rw [build_override_ret]
  exact Int.natCast_nonneg _

lemma build_override_ret_le (R O : Str) (buf : Option Str) (bufsiz : Nat) :
    (build_override R O buf bufsiz).ret ≤ (bufsiz : Int) := by
  rw [build_override_ret]
  exact_mod_cast Nat.min_le_right _ _

/-- Claim C7: on the override path, when the inner call to the original
implementation fails (negative return), both wrappers propagate that
return value and errno unchanged, do not invoke the synthesis routine, and
leave the caller's destination buffer untouched. -/
theorem inner_failure_propagated (E : Env) (st : PState) (buf : Option Str) (bufsiz : Nat)
    (dirfd : Int) (O : Str)
    (hov : E.exeName = some O) (hO : O ≠ [])
    (hrl : (call_real_readlink E st.cachedRl st.errno procSelfExe (PATH_MAX - 1)).ret < 0)
    (hrlat : (call_real_readlinkat E st.cachedRlat st.errno dirfd procSelfExe
      (PATH_MAX - 1)).ret < 0) :
    ((readlink E st (some procSelfExe) buf bufsiz).ret =
        (call_real_readlink E st.cachedRl st.errno procSelfExe (PATH_MAX - 1)).ret ∧
     (readlink E st (some procSelfExe) buf bufsiz).errno =
        (call_real_readlink E st.cachedRl st.errno procSelfExe (PATH_MAX - 1)).errno ∧
     (readlink E st (some procSelfExe) buf bufsiz).buf = buf ∧
     (readlink E st (some procSelfExe) buf bufsiz).buildCalls = 0) ∧
    ((readlinkat E st dirfd (some procSelfExe) buf bufsiz).ret =
        (call_real_readlinkat E st.cachedRlat st.errno dirfd procSelfExe (PATH_MAX - 1)).ret ∧
     (readlinkat E st dirfd (some procSelfExe) buf bufsiz).errno =
        (call_real_readlinkat E st.cachedRlat st.errno dirfd procSelfExe (PATH_MAX - 1)).errno ∧
     (readlinkat E st dirfd (some procSelfExe) buf bufsiz).buf = buf ∧
     (readlinkat E st dirfd (some procSelfExe) buf bufsiz).buildCalls = 0) := by
  rw [readlink_override_eq E st buf bufsiz O hov hO, if_pos hrl,
    readlinkat_override_eq E st dirfd buf bufsiz O hov hO, if_pos hrlat]
  exact ⟨⟨rfl, rfl, rfl, rfl⟩, rfl, rfl, rfl, rfl⟩

/-- Concrete environment whose original implementations fail with ENOENT /
EACCES, used to witness C7. -/
def envFail : Env :=
  { exeName := some ['f'], dlsymRl := true, dlsymRlat := true,
    realReadlink := fun _ _ => ⟨-1, [], some 2⟩,
    realReadlinkat := fun _ _ _ => ⟨-1, [], some 13⟩ }

/-- Witness for C7 at a concrete input. -/
theorem inner_failure_propagated_witness :
    envFail.exeName = some ['f'] ∧ (['f'] : Str) ≠ [] ∧
    (call_real_readlink envFail (⟨false, false, 0⟩ : PState).cachedRl
      (⟨false, false, 0⟩ : PState).errno procSelfExe (PATH_MAX - 1)).ret < 0 ∧
    (call_real_readlinkat envFail (⟨false, false, 0⟩ : PState).cachedRlat
      (⟨false, false, 0⟩ : PState).errno 5 procSelfExe (PATH_MAX - 1)).ret < 0 ∧
    (readlink envFail ⟨false, false, 0⟩ (some procSelfExe) (some ['.']) 1).ret =
      (call_real_readlink envFail (⟨false, false, 0⟩ : PState).cachedRl
        (⟨false, false, 0⟩ : PState).errno procSelfExe (PATH_MAX - 1)).ret := by
  refine ⟨rfl, by decide, by decide, by decide, ?_⟩
  exact (inner_failure_propagated envFail ⟨false, false, 0⟩ (some ['.']) 1 5 ['f']
    rfl (by decide) (by decide) (by decide)).1.1

/-- Claim C8: when the original symbol cannot be located (no cached pointer
and `dlsym` yields NULL), either wrapper returns -1 with errno `ENOSYS` and
never invokes the original implementation, for every path argument. -/
theorem unresolved_symbol_enosys (E : Env) (st : PState) (p : Str) (buf : Option Str)
    (bufsiz : Nat) (dirfd : Int)
    (h1 : st.cachedRl = false) (h2 : E.dlsymRl = false)
    (h3 : st.cachedRlat = false) (h4 : E.dlsymRlat = false) :
    ((readlink E st (some p) buf bufsiz).ret = -1 ∧
     (readlink E st (some p) buf bufsiz).errno = ENOSYS ∧
     (readlink E st (some p) buf bufsiz).realCalls = 0) ∧
    ((readlinkat E st dirfd (some p) buf bufsiz).ret = -1 ∧
     (readlinkat E st dirfd (some p) buf bufsiz).errno = ENOSYS ∧
     (readlinkat E st dirfd (some p) buf bufsiz).realCalls = 0) := by
  constructor
  · by_cases hfast : (E.exeName = none ∨ E.exeName = some [] ∨ p ≠ procSelfExe)
    · rw [readlink_fast E st p buf bufsiz hfast, h1,
        call_real_readlink_unresolved E st.errno p bufsiz h2]
      exact ⟨rfl, rfl, rfl⟩
    · push_neg at hfast
      obtain ⟨hne, hnee, hp⟩ := hfast
      rcases hEx : E.exeName with _ | O
      · exact absurd hEx hne
      · have hO : O ≠ [] := fun h0 => hnee (by rw [hEx, h0])
        subst hp
        rw [readlink_override_eq E st buf bufsiz O hEx hO, h1,
          call_real_readlink_unresolved E st.errno procSelfExe (PATH_MAX - 1) h2]
        norm_num
  · by_cases hfast : (E.exeName = none ∨ E.exeName = some [] ∨ p ≠ procSelfExe)
    · rw [readlinkat_fast E st dirfd p buf bufsiz hfast, h3,
        call_real_readlinkat_unresolved E st.errno dirfd p bufsiz h4]
      exact ⟨rfl, rfl, rfl⟩
    · push_neg at hfast
      obtain ⟨hne, hnee, hp⟩ := hfast
      rcases hEx : E.exeName with _ | O
      · exact absurd hEx hne
      · have hO : O ≠ [] := fun h0 => hnee (by rw [hEx, h0])
        subst hp
        rw [readlinkat_override_eq E st dirfd buf bufsiz O hEx hO, h3,
          call_real_readlinkat_unresolved E st.errno dirfd procSelfExe (PATH_MAX - 1) h4]
        norm_num

/-- Concrete environment whose symbols are not locatable, used to witness
C8. -/
def envNoSym : Env :=
  { exeName := none, dlsymRl := false, dlsymRlat := false,
    realReadlink := fun _ _ => ⟨0, [], none⟩,
    realReadlinkat := fun _ _ _ => ⟨0, [], none⟩ }

/-- Witness for C8 at a concrete input. -/
theorem unresolved_symbol_enosys_witness :
    (⟨false, false, 0⟩ : PState).cachedRl = false ∧ envNoSym.dlsymRl = false ∧
    (⟨false, false, 0⟩ : PState).cachedRlat = false ∧ envNoSym.dlsymRlat = false ∧
    (readlink envNoSym ⟨false, false, 0⟩ (some ['a']) none 0).ret = -1 := by
  refine ⟨rfl, rfl, rfl, rfl, ?_⟩
  exact (unresolved_symbol_enosys envNoSym ⟨false, false, 0⟩ ['a'] none 0 0
    rfl rfl rfl rfl).1.1

/-- Claim C10: on the override path, once the inner call to the original
implementation has succeeded, the wrapper cannot fail any more: the final
return value is nonnegative and at most the capacity, and the
synthesis/copy step leaves errno exactly as the inner call left it. -/
theorem override_success_no_new_failure (E : Env) (st : PState) (buf : Option Str)
    (bufsiz : Nat) (dirfd : Int) (O : Str)
    (hov : E.exeName = some O) (hO : O ≠ [])
    (hrl : 0 ≤ (call_real_readlink E st.cachedRl st.errno procSelfExe (PATH_MAX - 1)).ret)
    (hrlat : 0 ≤ (call_real_readlinkat E st.cachedRlat st.errno dirfd procSelfExe
      (PATH_MAX - 1)).ret) :
    (0 ≤ (readlink E st (some procSelfExe) buf bufsiz).ret ∧
     (readlink E st (some procSelfExe) buf bufsiz).ret ≤ (bufsiz : Int) ∧
     (readlink E st (some procSelfExe) buf bufsiz).errno =
       (call_real_readlink E st.cachedRl st.errno procSelfExe (PATH_MAX - 1)).errno) ∧
    (0 ≤ (readlinkat E st dirfd (some procSelfExe) buf bufsiz).ret ∧
     (readlinkat E st dirfd (some procSelfExe) buf bufsiz).ret ≤ (bufsiz : Int) ∧
     (readlinkat E st dirfd (some procSelfExe) buf bufsiz).errno =
       (call_real_readlinkat E st.cachedRlat st.errno dirfd procSelfExe
         (PATH_MAX - 1)).errno) := by
  rw [readlink_override_eq E st buf bufsiz O hov hO, if_neg (not_lt.mpr hrl),
    readlinkat_override_eq E st dirfd buf bufsiz O hov hO, if_neg (not_lt.mpr hrlat)]
  exact ⟨⟨build_override_ret_nonneg _ _ _ _, build_override_ret_le _ _ _ _, rfl⟩,
    build_override_ret_nonneg _ _ _ _, build_override_ret_le _ _ _ _, rfl⟩

/-- Concrete environment whose original implementations succeed with target
`/usr/bin/realprog`, used to witness C10. -/
def envOk : Env :=
  { exeName := some ['f'], dlsymRl := true, dlsymRlat := true,
    realReadlink := fun _ _ => ⟨17, "/usr/bin/realprog".toList, none⟩,
    realReadlinkat := fun _ _ _ => ⟨17, "/usr/bin/realprog".toList, none⟩ }

/-- Witness for C10 at a concrete input. -/
theorem override_success_no_new_failure_witness :
    envOk.exeName = some ['f'] ∧ (['f'] : Str) ≠ [] ∧
    0 ≤ (call_real_readlink envOk (⟨false, false, 0⟩ : PState).cachedRl
      (⟨false, false, 0⟩ : PState).errno procSelfExe (PATH_MAX - 1)).ret ∧
    0 ≤ (call_real_readlinkat envOk (⟨false, false, 0⟩ : PState).cachedRlat
      (⟨false, false, 0⟩ : PState).errno 3 procSelfExe (PATH_MAX - 1)).ret ∧
    0 ≤ (readlink envOk ⟨false, false, 0⟩ (some procSelfExe)
      (some (List.replicate 20 '.')) 20).ret := by
  refine ⟨rfl, by decide, by decide, by decide, ?_⟩
  exact (override_success_no_new_failure envOk ⟨false, false, 0⟩
    (some (List.replicate 20 '.')) 20 3 ['f'] rfl (by decide)
    (by decide) (by decide)).1.1

/-! Projection lemmas feeding the lookup-counting invariant. -/

lemma postState_cachedRl (o : CallOut) : (postState o).cachedRl = o.cachedRl := rfl

lemma postState_cachedRlat (o : CallOut) : (postState o).cachedRlat = o.cachedRlat := rfl

lemma doCall_rl (E : Env) (st : PState) (p b : Option Str) (n : Nat) :
    doCall E st (Call.rl p b n) = readlink E st p b n := rfl

lemma doCall_rlat (E : Env) (st : PState) (d : Int) (p b : Option Str) (n : Nat) :
    doCall E st (Call.rlat d p b n) = readlinkat E st d p b n := rfl

lemma readlink_none_lookups (E : Env) (st : PState) (b : Option Str) (n : Nat) :
    (readlink E st none b n).lookups = 0 := rfl

lemma readlink_none_cachedRl (E : Env) (st : PState) (b : Option Str) (n : Nat) :
    (readlink E st none b n).cachedRl = st.cachedRl := rfl

lemma readlinkat_none_lookups (E : Env) (st : PState) (d : Int) (b : Option Str) (n : Nat) :
    (readlinkat E st d none b n).lookups = 0 := rfl

lemma readlinkat_none_cachedRlat (E : Env) (st : PState) (d : Int) (b : Option Str) (n : Nat) :
    (readlinkat E st d none b n).cachedRlat = st.cachedRlat := rfl

lemma readlink_some_lookups (E : Env) (st : PState) (p : Str) (b : Option Str) (n : Nat) :
    (readlink E st (some p) b n).lookups = if st.cachedRl then 0 else 1 := by
  by_cases hfast : (E.exeName = none ∨ E.exeName = some [] ∨ p ≠ procSelfExe)
  · rw [readlink_fast E st p b n hfast]
    exact call_real_readlink_lookups E st.cachedRl st.errno p n
  · push_neg at hfast
    obtain ⟨hne, hnee, hp⟩ := hfast
    rcases hEx : E.exeName with _ | O
    · exact absurd hEx hne
    · have hO : O ≠ [] := fun h0 => hnee (by rw [hEx, h0])
      subst hp
      rw [readlink_override_eq E st b n O hEx hO]
      split <;>
        exact call_real_readlink_lookups E st.cachedRl st.errno procSelfExe (PATH_MAX - 1)

lemma readlink_some_cachedRl (E : Env) (st : PState) (p : Str) (b : Option Str) (n : Nat) :
    (readlink E st (some p) b n).cachedRl = (st.cachedRl || E.dlsymRl) := by
  by_cases hfast : (E.exeName = none ∨ E.exeName = some [] ∨ p ≠ procSelfExe)
  · rw [readlink_fast E st p b n hfast]
    exact call_real_readlink_cached E st.cachedRl st.errno p n
  · push_neg at hfast
    obtain ⟨hne, hnee, hp⟩ := hfast
    rcases hEx : E.exeName with _ | O
    · exact absurd hEx hne
    · have hO : O ≠ [] := fun h0 => hnee (by rw [hEx, h0])
      subst hp
      rw [readlink_override_eq E st b n O hEx hO]
      split <;>
        exact call_real_readlink_cached E st.cachedRl st.errno procSelfExe (PATH_MAX - 1)

lemma readlinkat_some_lookups (E : Env) (st : PState) (d : Int) (p : Str) (b : Option Str)
    (n : Nat) :
    (readlinkat E st d (some p) b n).lookups = if st.cachedRlat then 0 else 1 := by
  by_cases hfast : (E.exeName = none ∨ E.exeName = some [] ∨ p ≠ procSelfExe)
  · rw [readlinkat_fast E st d p b n hfast]
    exact call_real_readlinkat_lookups E st.cachedRlat st.errno d p n
  · push_neg at hfast
    obtain ⟨hne, hnee, hp⟩ := hfast
    rcases hEx : E.exeName with _ | O
    · exact absurd hEx hne
    · have hO : O ≠ [] := fun h0 => hnee (by rw [hEx, h0])
      subst hp
      rw [readlinkat_override_eq E st d b n O hEx hO]
      split <;>
        exact call_real_readlinkat_lookups E st.cachedRlat st.errno d procSelfExe (PATH_MAX - 1)

lemma readlinkat_some_cachedRlat (E : Env) (st : PState) (d : Int) (p : Str) (b : Option Str)
    (n : Nat) :
    (readlinkat E st d (some p) b n).cachedRlat = (st.cachedRlat || E.dlsymRlat) := by
  by_cases hfast : (E.exeName = none ∨ E.exeName = some [] ∨ p ≠ procSelfExe)
  · rw [readlinkat_fast E st d p b n hfast]
    exact call_real_readlinkat_cached E st.cachedRlat st.errno d p n
  · push_neg at hfast
    obtain ⟨hne, hnee, hp⟩ := hfast
    rcases hEx : E.exeName with _ | O
    · exact absurd hEx hne
    · have hO : O ≠ [] := fun h0 => hnee (by rw [hEx, h0])
      subst hp
      rw [readlinkat_override_eq E st d b n O hEx hO]
      split <;>
        exact call_real_readlinkat_cached E st.cachedRlat st.errno d procSelfExe (PATH_MAX - 1)

lemma readlink_cachedRlat_eq (E : Env) (st : PState) (path b : Option Str) (n : Nat) :
    (readlink E st path b n).cachedRlat = st.cachedRlat := by
  cases path with
  | none => rfl
  | some p =>
    by_cases hfast : (E.exeName = none ∨ E.exeName = some [] ∨ p ≠ procSelfExe)
    · rw [readlink_fast E st p b n hfast]
    · push_neg at hfast
      obtain ⟨hne, hnee, hp⟩ := hfast
      rcases hEx : E.exeName with _ | O
      · exact absurd hEx hne
      · have hO : O ≠ [] := fun h0 => hnee (by rw [hEx, h0])
        subst hp
        rw [readlink_override_eq E st b n O hEx hO]
        split <;> rfl

lemma readlinkat_cachedRl_eq (E : Env) (st : PState) (d : Int) (path b : Option Str) (n : Nat) :
    (readlinkat E st d path b n).cachedRl = st.cachedRl := by
  cases path with
  | none => rfl
  | some p =>
    by_cases hfast : (E.exeName = none ∨ E.exeName = some [] ∨ p ≠ procSelfExe)
    · rw [readlinkat_fast E st d p b n hfast]
    · push_neg at hfast
      obtain ⟨hne, hnee, hp⟩ := hfast
      rcases hEx : E.exeName with _ | O
      · exact absurd hEx hne
      · have hO : O ≠ [] := fun h0 => hnee (by rw [hEx, h0])
        subst hp
        rw [readlinkat_override_eq E st d b n O hEx hO]
        split <;> rfl

lemma rlLookups_bound (E : Env) (st : PState) (cs : List Call) (h1 : E.dlsymRl = true) :
    rlLookups E st cs ≤ if st.cachedRl then 0 else 1 := by
  induction cs generalizing st with
  | nil =>
    simp only [rlLookups]
    split <;> omega
  | cons c rest ih =>
    rcases c with ⟨p, b, n⟩ | ⟨d, p, b, n⟩
    · rcases p with _ | p
      · have h := ih (postState (doCall E st (Call.rl none b n)))
        rw [postState_cachedRl, doCall_rl, readlink_none_cachedRl] at h
        simp only [rlLookups, doCall_rl, readlink_none_lookups, Nat.zero_add]
        exact h
      · have h := ih (postState (doCall E st (Call.rl (some p) b n)))
        rw [postState_cachedRl, doCall_rl, readlink_some_cachedRl, h1, Bool.or_true] at h
        simp only [if_true, Nat.le_zero] at h
        simp only [rlLookups, doCall_rl, readlink_some_lookups]
        rw [h]
        cases hc : st.cachedRl <;> simp
    · have h := ih (postState (doCall E st (Call.rlat d p b n)))
      rw [postState_cachedRl, doCall_rlat, readlinkat_cachedRl_eq] at h
      simp only [rlLookups, doCall_rlat, Nat.zero_add]
      exact h

lemma rlatLookups_bound (E : Env) (st : PState) (cs : List Call) (h2 : E.dlsymRlat = true) :
    rlatLookups E st cs ≤ if st.cachedRlat then 0 else 1 := by
  induction cs generalizing st with
  | nil =>
    simp only [rlatLookups]
    split <;> omega
  | cons c rest ih =>
    rcases c with ⟨p, b, n⟩ | ⟨d, p, b, n⟩
    · have h := ih (postState (doCall E st (Call.rl p b n)))
      rw [postState_cachedRlat, doCall_rl, readlink_cachedRlat_eq] at h
      simp only [rlatLookups, doCall_rl, Nat.zero_add]
      exact h
    · rcases p with _ | p
      · have h := ih (postState (doCall E st (Call.rlat d none b n)))
        rw [postState_cachedRlat, doCall_rlat, readlinkat_none_cachedRlat] at h
        simp only [rlatLookups, doCall_rlat, readlinkat_none_lookups, Nat.zero_add]
        exact h
      · have h := ih (postState (doCall E st (Call.rlat d (some p) b n)))
        rw [postState_cachedRlat, doCall_rlat, readlinkat_some_cachedRlat, h2,
          Bool.or_true] at h
        simp only [if_true, Nat.le_zero] at h
        simp only [rlatLookups, doCall_rlat, readlinkat_some_lookups]
        rw [h]
        cases hc : st.cachedRlat <;> simp

/-- Claim C5 counterexample: `dlsym` is not invoked at most once per symbol
per process lifetime — when it returns NULL the cache stays NULL and the
lookup is repeated: two wrapper invocations in an environment whose symbol
is unobtainable perform two lookups. -/
theorem dlsym_retry_counterexample :
    rlLookups
      ⟨none, false, false, fun _ _ => ⟨0, [], none⟩, fun _ _ _ => ⟨0, [], none⟩⟩
      ⟨false, false, 0⟩
      [Call.rl (some ['a']) none 0, Call.rl (some ['a']) none 0] = 2 ∧
    ¬ rlLookups
      ⟨none, false, false, fun _ _ => ⟨0, [], none⟩, fun _ _ _ => ⟨0, [], none⟩⟩
      ⟨false, false, 0⟩
      [Call.rl (some ['a']) none 0, Call.rl (some ['a']) none 0] ≤ 1 := by
  constructor <;> decide

/-- Claim C5 (amended): in any sequence of wrapper invocations, a lookup is
performed only while the cached pointer is still null — once a symbol's
pointer is cached non-null the count of further lookups for it is zero —
and as long as `dlsym` can resolve the symbols, `dlsym` is invoked at most
once per symbol over the whole sequence (zero times when the pointer is
already cached).  When `dlsym` keeps returning NULL, however, the code
retries the lookup on each call, so the unconditional "at most once per
process lifetime" of the original claim fails (see the counterexample). -/
theorem dlsym_resolved_at_most_once (E : Env) (st : PState) (cs : List Call)
    (h1 : E.dlsymRl = true) (h2 : E.dlsymRlat = true) :
    rlLookups E st cs ≤ (if st.cachedRl then 0 else 1) ∧
    rlatLookups E st cs ≤ (if st.cachedRlat then 0 else 1) :=
  ⟨rlLookups_bound E st cs h1, rlatLookups_bound E st cs h2⟩

/-- Witness for the amended C5 at a concrete input. -/
theorem dlsym_resolved_at_most_once_witness :
    (⟨none, true, true, fun _ _ => ⟨0, [], none⟩,
      fun _ _ _ => ⟨0, [], none⟩⟩ : Env).dlsymRl = true ∧
    (⟨none, true, true, fun _ _ => ⟨0, [], none⟩,
      fun _ _ _ => ⟨0, [], none⟩⟩ : Env).dlsymRlat = true ∧
    rlLookups
      (⟨none, true, true, fun _ _ => ⟨0, [], none⟩, fun _ _ _ => ⟨0, [], none⟩⟩ : Env)
      ⟨false, false, 0⟩
      [Call.rl (some ['a']) none 0, Call.rl (some ['a']) none 0] ≤ 1 := by
  refine ⟨rfl, rfl, ?_⟩
  exact (dlsym_resolved_at_most_once
    (⟨none, true, true, fun _ _ => ⟨0, [], none⟩, fun _ _ _ => ⟨0, [], none⟩⟩ : Env)
    ⟨false, false, 0⟩
    [Call.rl (some ['a']) none 0, Call.rl (some ['a']) none 0] rfl rfl).1

end VkOverride
